import Mathlib

/-!
Shallow embedding of the pip-services3-data-node memory persistence layer
(`src/persistence/MemoryPersistence.ts` and
`src/persistence/IdentifiableMemoryPersistence.ts`).

Modelling decisions, each tied to the source:
* JavaScript primitive values that can appear in record fields are modelled by
  `JsVal` (strings, integer-valued numbers, `null`, `undefined`).  Numbers are
  modelled as integers: the repository only ever stores ids and plain text
  fields, never fractional numbers.
* A JavaScript object is a list of property/value pairs (`Obj`); property
  lookup takes the first binding, property write replaces the first binding in
  place or appends.
* Object identity (aliasing) matters for the defensive-copy claims, so a live
  record `Rec` is an address (`Nat`) paired with its property list.  `_.clone`
  allocates a fresh address carrying the same properties (a shallow copy; all
  modelled property values are primitives, so shallow equals deep here).
  Mutating the object behind an address rewrites every list entry with that
  address (`mutateProp`), which is exactly what aliasing does in JavaScript.
* `x.id == id` in `getOneById` is JavaScript loose equality (`looseEq`);
  `Array.prototype.indexOf` used by `set`/`update`/`updatePartially`/
  `deleteById` compares with strict equality, which on the modelled value
  space is structural equality of `JsVal`.
* `IdGenerator.nextLong()` is modelled by an abstract generator
  `gen : Nat → String` sampled at an ever-increasing counter in the state.
* The optional saver is `Option Saver`, where a `Saver` returns `none` on
  success or `some err` on failure, mirroring the `(err) => ...` callback.
-/

/-- JavaScript primitive values stored in record fields (numbers restricted to
integers, which covers everything this repository stores). -/
inductive JsVal where
  | undef : JsVal
  | null : JsVal
  | num : Int → JsVal
  | str : String → JsVal
deriving DecidableEq, Repr

/-- Numeric value of a decimal digit list, most significant first. -/
def digitsToNat (cs : List Char) : Nat :=
  cs.foldl (fun n c => n * 10 + (c.toNat - 48)) 0

/-- JavaScript `Number(string)` conversion on the modelled subset: the empty
string converts to 0, a (possibly negated) run of decimal digits converts to
the corresponding integer, and anything else is NaN (`none`). -/
def strToNum (s : String) : Option Int :=
  match s.data with
  | [] => some 0
  | '-' :: rest =>
    if !rest.isEmpty && rest.all Char.isDigit then some (-(digitsToNat rest : Int)) else none
  | cs =>
    if cs.all Char.isDigit then some ((digitsToNat cs : Int)) else none

/-- JavaScript loose equality `==` on the modelled value space:
`null == undefined`, numbers and strings compare after converting the string
to a number, and there is no coercion between `null`/`undefined` and
numbers or strings. -/
def looseEq : JsVal → JsVal → Bool
  | .null, .null => true
  | .null, .undef => true
  | .undef, .null => true
  | .undef, .undef => true
  | .num a, .num b => a == b
  | .str a, .str b => a == b
  | .num a, .str s => strToNum s == some a
  | .str s, .num a => strToNum s == some a
  | _, _ => false

/-- The JavaScript test `v == null`, true exactly for `null` and `undefined`. -/
def isNullish (v : JsVal) : Bool :=
  looseEq v .null

/-- A JavaScript object: ordered property list, first binding wins on read. -/
abbrev Obj := List (String × JsVal)

/-- Property read, first binding wins; a missing property reads as
`undefined`. -/
def getProp : Obj → String → JsVal
  | [], _ => .undef
  | kv :: rest, k => if kv.1 = k then kv.2 else getProp rest k

/-- Property write: overwrite the first binding of `k` in place, or append a
new binding when the property is absent. -/
def setProp : Obj → String → JsVal → Obj
  | [], k, v => [(k, v)]
  | kv :: rest, k, v => if kv.1 = k then (k, v) :: rest else kv :: setProp rest k v

/-- lodash `_.extend(base, src)`: assign every property of `src` onto `base`,
in property order, mutating `base`. -/
def extendObj (base : Obj) (src : Obj) : Obj :=
  src.foldl (fun b kv => setProp b kv.1 kv.2) base

/-- A live record: a heap address (object identity) plus its properties.  Two
records with the same address are the same JavaScript object. -/
structure Rec where
  addr : Nat
  obj : Obj
deriving DecidableEq, Repr

/-- The record's `id` property (`x.id` in the source). -/
def idOf (r : Rec) : JsVal :=
  getProp r.obj "id"

/-- State of one persistence instance: the Working Set `_items`, the next
fresh heap address, the id-generator counter, and `_maxPageSize`
(default 100). -/
structure Pers where
  items : List Rec
  nextAddr : Nat
  genCtr : Nat
  maxPageSize : Int
deriving DecidableEq, Repr

/-- A freshly constructed persistence: empty Working Set, default
`_maxPageSize` of 100. -/
def emptyPers : Pers :=
  ⟨[], 0, 0, 100⟩

/-- A saver callback: given the full item list, reports `none` for success or
`some err` for failure. -/
abbrev Saver := List Rec → Option String

/-- `MemoryPersistence.save`: succeed trivially without a saver, otherwise
hand the whole Working Set to the saver. -/
def save (saver : Option Saver) (items : List Rec) : Option String :=
  match saver with
  | none => none
  | some sv => sv items

/-- Outcome of one operation: the error handed to the callback, the item
handed to the callback, the state afterwards, and whether the code path
reached a `this.save(...)` call. -/
structure OpResult where
  err : Option String
  ret : Option Rec
  state : Pers
  saveAttempted : Bool
deriving DecidableEq, Repr

/-- Caller-side mutation of the object at address `a`: sets property `k` to
`v` on every list entry sharing that address (aliasing semantics). -/
def mutateProp (items : List Rec) (a : Nat) (k : String) (v : JsVal) : List Rec :=
  items.map (fun r => if r.addr = a then ⟨r.addr, setProp r.obj k v⟩ else r)

namespace MemoryPersistence

/-- `MemoryPersistence.create`: `item = _.clone(item)` (fresh address, same
properties), push the clone, save, and hand the clone itself back. -/
def create (saver : Option Saver) (s : Pers) (item : Rec) : OpResult :=
  let c : Rec := ⟨s.nextAddr, item.obj⟩
  let items := s.items ++ [c]
  ⟨save saver items, some c, { s with items := items, nextAddr := s.nextAddr + 1 }, true⟩

/-- `MemoryPersistence.clear`: empty the Working Set, then save. -/
def clear (saver : Option Saver) (s : Pers) : OpResult :=
  ⟨save saver [], none, { s with items := [] }, true⟩

/-- Stable ascending insertion used to model lodash `_.sortBy`. -/
def insertSorted (key : Rec → Int) (x : Rec) : List Rec → List Rec
  | [] => [x]
  | y :: ys => if key y ≤ key x then y :: insertSorted key x ys else x :: y :: ys

/-- Stable sort by an integer key, modelling lodash `_.sortBy`. -/
def sortByKey (key : Rec → Int) (l : List Rec) : List Rec :=
  l.foldr (insertSorted key) []

/-- `PagingParams` from pip-services3-commons-node: optional skip and take
plus the total flag. -/
structure PagingParams where
  skip : Option Int
  take : Option Int
  total : Bool
deriving DecidableEq, Repr

/-- `PagingParams.getSkip(minSkip)`: default and lower-clamp to `minSkip`. -/
def getSkip (p : PagingParams) (minSkip : Int) : Int :=
  match p.skip with
  | none => minSkip
  | some v => if v < minSkip then minSkip else v

/-- `PagingParams.getTake(maxTake)`: default to `maxTake`, clamp negatives to
0 and values above `maxTake` down to `maxTake`. -/
def getTake (p : PagingParams) (maxTake : Int) : Int :=
  match p.take with
  | none => maxTake
  | some v => if v < 0 then 0 else if v > maxTake then maxTake else v

/-- `MemoryPersistence.getPageByFilter`: filter, stable-sort, read the skip
(default -1) and take (default `_maxPageSize`), record the filtered length as
the total when requested, then slice when `skip > 0` and take. -/
def getPageByFilter (s : Pers) (filter : Option (Rec → Bool))
    (paging : Option PagingParams) (sort : Option (Rec → Int)) :
    List Rec × Option Nat :=
  let items0 := match filter with
    | some f => s.items.filter f
    | none => s.items
  let items1 := match sort with
    | some key => sortByKey key items0
    | none => items0
  let pg := match paging with
    | some p => p
    | none => (⟨none, none, false⟩ : PagingParams)
  let skip := getSkip pg (-1)
  let tk := getTake pg s.maxPageSize
  let total : Option Nat := if pg.total then some items1.length else none
  let items2 := if skip > 0 then items1.drop skip.toNat else items1
  (items2.take tk.toNat, total)

/-- The `for (let index = length - 1; index >= 0; index--)` loop of
`deleteByFilter`: `delUpTo pred k items` processes indices `k-1` down to `0`,
splicing out every matching element and counting the removals. -/
def delUpTo (pred : Rec → Bool) : Nat → List Rec → List Rec × Nat
  | 0, items => (items, 0)
  | k + 1, items =>
    match items[k]? with
    | some it =>
      if pred it then
        let r := delUpTo pred k (items.eraseIdx k)
        (r.1, r.2 + 1)
      else
        delUpTo pred k items
    | none => delUpTo pred k items

/-- `MemoryPersistence.deleteByFilter`: tail-to-head splice loop, then a save
only when at least one element was deleted. -/
def deleteByFilter (saver : Option Saver) (s : Pers) (pred : Rec → Bool) : OpResult :=
  let r := delUpTo pred s.items.length s.items
  if r.2 = 0 then
    ⟨none, none, { s with items := r.1 }, false⟩
  else
    ⟨save saver r.1, none, { s with items := r.1 }, true⟩

end MemoryPersistence

namespace IdentifiableMemoryPersistence

/-- `this._items.map((x) => x.id).indexOf(id)`: index of the first record
whose id is strictly equal to `id`, `none` when absent. -/
def findIndexById (items : List Rec) (id : JsVal) : Option Nat :=
  items.findIdx? (fun r => idOf r = id)

/-- `IdentifiableMemoryPersistence.getOneById`: filter by loose id equality
and hand back the first stored record itself (no copy). -/
def getOneById (s : Pers) (id : JsVal) : Option Rec :=
  (s.items.filter (fun x => looseEq (idOf x) id)).head?

/-- `IdentifiableMemoryPersistence.create`: when the submitted id is
null/absent, clone and stamp a generated id, then delegate to
`MemoryPersistence.create` (which clones again and pushes). -/
def create (gen : Nat → String) (saver : Option Saver) (s : Pers) (item : Rec) : OpResult :=
  if isNullish (idOf item) then
    let c : Rec := ⟨s.nextAddr, setProp item.obj "id" (.str (gen s.genCtr))⟩
    MemoryPersistence.create saver
      { s with nextAddr := s.nextAddr + 1, genCtr := s.genCtr + 1 } c
  else
    MemoryPersistence.create saver s item

/-- `IdentifiableMemoryPersistence.set`: always clone, generate an id when
null/absent, then replace in place on a strict id match or append, and save.
The clone is both stored and handed back. -/
def set (gen : Nat → String) (saver : Option Saver) (s : Pers) (item : Rec) : OpResult :=
  let c0 : Rec := ⟨s.nextAddr, item.obj⟩
  let s1 := { s with nextAddr := s.nextAddr + 1 }
  let p : Rec × Pers :=
    if isNullish (idOf c0) then
      (⟨c0.addr, setProp c0.obj "id" (.str (gen s1.genCtr))⟩, { s1 with genCtr := s1.genCtr + 1 })
    else
      (c0, s1)
  let c := p.1
  let s2 := p.2
  match findIndexById s2.items (idOf c) with
  | none =>
    let items := s2.items ++ [c]
    ⟨save saver items, some c, { s2 with items := items }, true⟩
  | some i =>
    let items := s2.items.set i c
    ⟨save saver items, some c, { s2 with items := items }, true⟩

/-- `IdentifiableMemoryPersistence.update`: on a strict id match replace the
stored record with a clone of the submitted one and save; otherwise answer
"not found" (null item, no error) without touching anything. -/
def update (saver : Option Saver) (s : Pers) (item : Rec) : OpResult :=
  match findIndexById s.items (idOf item) with
  | none => ⟨none, none, s, false⟩
  | some i =>
    let c : Rec := ⟨s.nextAddr, item.obj⟩
    let items := s.items.set i c
    ⟨save saver items, some c, { s with items := items, nextAddr := s.nextAddr + 1 }, true⟩

/-- `IdentifiableMemoryPersistence.updatePartially`: on a strict id match,
`_.extend` the data map onto the stored object in place (same address, same
position) and save; otherwise answer "not found".  The inner `none` branch is
unreachable because `findIndexById` only returns in-range indices. -/
def updatePartially (saver : Option Saver) (s : Pers) (id : JsVal) (data : Obj) : OpResult :=
  match findIndexById s.items id with
  | none => ⟨none, none, s, false⟩
  | some i =>
    match s.items[i]? with
    | none => ⟨none, none, s, false⟩
    | some old =>
      let itm : Rec := ⟨old.addr, extendObj old.obj data⟩
      let items := s.items.set i itm
      ⟨save saver items, some itm, { s with items := items }, true⟩

/-- `IdentifiableMemoryPersistence.deleteById`: on a strict id match splice
the record out, save, and hand the removed record back; otherwise answer
"not found" without touching anything. -/
def deleteById (saver : Option Saver) (s : Pers) (id : JsVal) : OpResult :=
  match findIndexById s.items id with
  | none => ⟨none, none, s, false⟩
  | some i =>
    let item := s.items[i]?
    let items := s.items.eraseIdx i
    ⟨save saver items, item, { s with items := items }, true⟩

/-- `update` run with the completion callback possibly omitted (`cb = false`):
the not-found branch calls `callback(null, null)` without a guard, which
throws a TypeError (`.error ()`) when no callback was passed; every other
completion goes through `if (callback) ...` and never throws. -/
def updateRun (saver : Option Saver) (cb : Bool) (s : Pers) (item : Rec) :
    Except Unit OpResult :=
  match findIndexById s.items (idOf item) with
  | none => if cb then .ok (update saver s item) else .error ()
  | some _ => .ok (update saver s item)

/-- `updatePartially` run with the completion callback possibly omitted; the
not-found branch invokes the callback unconditionally. -/
def updatePartiallyRun (saver : Option Saver) (cb : Bool) (s : Pers) (id : JsVal) (data : Obj) :
    Except Unit OpResult :=
  match findIndexById s.items id with
  | none => if cb then .ok (updatePartially saver s id data) else .error ()
  | some _ => .ok (updatePartially saver s id data)

/-- `deleteById` run with the completion callback possibly omitted; the
not-found branch invokes the callback unconditionally. -/
def deleteByIdRun (saver : Option Saver) (cb : Bool) (s : Pers) (id : JsVal) :
    Except Unit OpResult :=
  match findIndexById s.items id with
  | none => if cb then .ok (deleteById saver s id) else .error ()
  | some _ => .ok (deleteById saver s id)

end IdentifiableMemoryPersistence

/-- One step of a write workload against the identifiable persistence:
either a `create` or a `set` call. -/
inductive WOp where
  | wCreate : Rec → WOp
  | wSet : Rec → WOp
deriving DecidableEq, Repr

/-- The record submitted by a workload step. -/
def WOp.item : WOp → Rec
  | .wCreate r => r
  | .wSet r => r

/-- Runs a sequence of `create`/`set` calls, threading the state through
(errors reported by the saver do not undo the in-memory change, exactly as in
the source). -/
def runOps (gen : Nat → String) (saver : Option Saver) : Pers → List WOp → Pers
  | s, [] => s
  | s, op :: rest =>
    match op with
    | .wCreate it => runOps gen saver (IdentifiableMemoryPersistence.create gen saver s it).state rest
    | .wSet it => runOps gen saver (IdentifiableMemoryPersistence.set gen saver s it).state rest

/-- Invariant carried through `runOps`: the Working Set ids are pairwise
distinct and every one of them was produced by the generator at a counter
value below the current one. -/
def IdsSpec (gen : Nat → String) (s : Pers) : Prop :=
  (s.items.map idOf).Pairwise (· ≠ ·) ∧
    ∀ v ∈ s.items.map idOf, ∃ k < s.genCtr, v = JsVal.str (gen k)

/-! Concrete values used by counterexamples and witnesses. -/

/-- An injective id generator usable in witnesses. -/
def genRep : Nat → String := fun n => String.mk (List.replicate n 'a')

/-- A saver that always fails. -/
def savFail : Saver := fun _ => some "boom"

/-- A record submitted with a null id (caller-side address 100). -/
def itemC1 : Rec := ⟨100, [("id", JsVal.null), ("key", JsVal.str "K")]⟩

/-- Outcome of `create` on a fresh persistence for the aliasing analysis. -/
def resC1 : OpResult := IdentifiableMemoryPersistence.create genRep none emptyPers itemC1

/-- A stored record whose id is the number 1. -/
def rec10 : Rec := ⟨0, [("id", JsVal.num 1), ("key", JsVal.str "A")]⟩

/-- A Working Set holding only `rec10`. -/
def persC10 : Pers := ⟨[rec10], 1, 0, 100⟩

/-- A submitted record whose id is the string "1". -/
def itemC10 : Rec := ⟨7, [("id", JsVal.str "1"), ("key", JsVal.str "B")]⟩

/-- A Working Set of 101 records (one more than the default page cap). -/
def persC3 : Pers := ⟨(List.range 101).map (fun i => ⟨i, [("id", JsVal.num i)]⟩), 101, 0, 100⟩

/-- The page extracted from `persC3` with skip 0, take 101, total requested. -/
def pageC3 : List Rec × Option Nat :=
  MemoryPersistence.getPageByFilter persC3 (some (fun _ => true)) (some ⟨some 0, some 101, true⟩) none

/-- A one-record Working Set whose record has string id "a". -/
def persA : Pers := ⟨[⟨0, [("id", JsVal.str "a"), ("key", JsVal.str "K")]⟩], 5, 0, 100⟩

/-- A submitted record with the fresh string id "b". -/
def itemB : Rec := ⟨9, [("id", JsVal.str "b"), ("key", JsVal.str "N")]⟩

/-- A submitted record sharing id "a" with the record stored in `persA`. -/
def itemA : Rec := ⟨9, [("id", JsVal.str "a"), ("key", JsVal.str "NEW")]⟩

/-- A two-step workload, both records submitted with null/absent ids. -/
def opsC2 : List WOp :=
  [.wCreate ⟨50, [("id", JsVal.null), ("key", JsVal.str "K1")]⟩,
   .wSet ⟨51, [("id", JsVal.undef), ("key", JsVal.str "K2")]⟩]

/-- A stored record with id "1" and two payload fields. -/
def recC7 : Rec := ⟨0, [("id", JsVal.str "1"), ("key", JsVal.str "K"), ("content", JsVal.str "C")]⟩

/-- A one-record Working Set holding `recC7`. -/
def persC7 : Pers := ⟨[recC7], 1, 0, 100⟩

/-- A record submitted with a null id. -/
def itemNullId : Rec := ⟨9, [("id", JsVal.null), ("key", JsVal.str "W")]⟩

/-! ## Helper lemmas about the embedded primitives -/

/-- Mutating an address that occurs nowhere in a record list is a no-op. -/
theorem mutateProp_eq_self {items : List Rec} {a : Nat} (k : String) (v : JsVal)
    (h : ∀ r ∈ items, r.addr ≠ a) : mutateProp items a k v = items := by
  unfold mutateProp
  conv_rhs => rw [← List.map_id items]
  apply List.map_congr_left
  intro r hr
  simp [h r hr]

/-- Reading back the property just written. -/
theorem getProp_setProp_self (o : Obj) (k : String) (v : JsVal) :
    getProp (setProp o k v) k = v := by
  induction o with
  | nil => simp [setProp, getProp]
  | cons kv rest ih =>
    by_cases h : kv.1 = k
    · simp [setProp, getProp, h]
    · simp [setProp, getProp, h, ih]

/-- Writing one property leaves every other property unchanged. -/
theorem getProp_setProp_ne (o : Obj) {k k' : String} (v : JsVal) (h : k' ≠ k) :
    getProp (setProp o k v) k' = getProp o k' := by
  induction o with
  | nil => simp [setProp, getProp, Ne.symm h]
  | cons kv rest ih =>
    by_cases hk : kv.1 = k
    · simp [setProp, hk, getProp, Ne.symm h]
    · simp [setProp, hk, getProp, ih]

/-- Extending never touches a property that the source map does not name. -/
theorem getProp_extendObj_not_mem (base src : Obj) {k : String}
    (h : k ∉ src.map Prod.fst) : getProp (extendObj base src) k = getProp base k := by
  induction src generalizing base with
  | nil => simp [extendObj]
  | cons kv rest ih =>
    simp only [List.map_cons, List.mem_cons, not_or] at h
    simpa [extendObj] using (ih (setProp base kv.1 kv.2) h.2).trans
      (getProp_setProp_ne base kv.2 h.1)

/-- Extending with a duplicate-free map stores each named property's value. -/
theorem getProp_extendObj_mem (base src : Obj) {k : String} {v : JsVal}
    (hnodup : (src.map Prod.fst).Nodup) (hmem : (k, v) ∈ src) :
    getProp (extendObj base src) k = v := by
  induction src generalizing base with
  | nil => simp at hmem
  | cons kv rest ih =>
    simp only [List.map_cons, List.nodup_cons] at hnodup
    rcases List.mem_cons.mp hmem with h | h
    · subst h
      have hnot : k ∉ rest.map Prod.fst := hnodup.1
      calc getProp (extendObj (setProp base k v) rest) k
          = getProp (setProp base k v) k := getProp_extendObj_not_mem _ _ hnot
        _ = v := getProp_setProp_self base k v
    · exact ih (setProp base kv.1 kv.2) hnodup.2 h

/-- The tail-to-head splice loop of `deleteByFilter` keeps, in order, exactly
the prefix elements failing the predicate, and counts the removals. -/
theorem delUpTo_eq (pred : Rec → Bool) (k : Nat) (items : List Rec)
    (h : k ≤ items.length) :
    MemoryPersistence.delUpTo pred k items =
      ((items.take k).filter (fun x => !pred x) ++ items.drop k,
        (items.take k).countP pred) := by
  induction k generalizing items with
  | zero => simp [MemoryPersistence.delUpTo]
  | succ k ih =>
    have hk : k < items.length := Nat.lt_of_succ_le h
    have hget : items[k]? = some items[k] := List.getElem?_eq_getElem hk
    have htake : items.take (k + 1) = items.take k ++ [items[k]] := by
      rw [List.take_succ, hget]
      rfl
    have hdrop : items.drop k = items[k] :: items.drop (k + 1) :=
      List.drop_eq_getElem_cons hk
    have hlen2 : (items.take k).length = k := by
      rw [List.length_take]; omega
    by_cases hp : pred items[k] = true
    · have herase : items.eraseIdx k = items.take k ++ items.drop (k + 1) :=
        List.eraseIdx_eq_take_drop_succ items k
      have hlen : k ≤ (items.eraseIdx k).length := by
        rw [herase, List.length_append, hlen2]; omega
      have htk : (items.eraseIdx k).take k = items.take k := by
        rw [herase]; exact List.take_left' hlen2
      have hdk : (items.eraseIdx k).drop k = items.drop (k + 1) := by
        rw [herase]; exact List.drop_left' hlen2
      rw [MemoryPersistence.delUpTo, hget]
      simp only [hp, if_true, ih _ hlen, htk, hdk, Prod.mk.injEq]
      rw [htake, List.filter_append, List.countP_append]
      constructor
      · simp [hp]
      · simp [hp, List.countP_cons]
    · have hpf : pred items[k] = false := by
        cases hpred : pred items[k]
        · rfl
        · exact absurd hpred hp
      rw [MemoryPersistence.delUpTo, hget]
      simp only [hpf, Bool.false_eq_true, if_false, ih _ (Nat.le_of_lt hk), Prod.mk.injEq]
      rw [htake, List.filter_append, List.countP_append, hdrop]
      constructor
      · simp [hpf]
      · simp [hpf, List.countP_cons]

/-- Instance of `delUpTo_eq` at the full length, as `deleteByFilter` uses. -/
theorem delUpTo_length (pred : Rec → Bool) (items : List Rec) :
    MemoryPersistence.delUpTo pred items.length items =
      (items.filter (fun x => !pred x), items.countP pred) := by
  rw [delUpTo_eq pred items.length items (Nat.le_refl _)]
  simp [List.take_length, List.drop_length]

/-- Stable insertion grows the list by one. -/
theorem length_insertSorted (key : Rec → Int) (x : Rec) (l : List Rec) :
    (MemoryPersistence.insertSorted key x l).length = l.length + 1 := by
  induction l with
  | nil => simp [MemoryPersistence.insertSorted]
  | cons y ys ih =>
    by_cases h : key y ≤ key x
    · simp [MemoryPersistence.insertSorted, h, ih]
    · simp [MemoryPersistence.insertSorted, h]

/-- The model of `_.sortBy` preserves length. -/
theorem length_sortByKey (key : Rec → Int) (l : List Rec) :
    (MemoryPersistence.sortByKey key l).length = l.length := by
  induction l with
  | nil => rfl
  | cons y ys ih =>
    simp only [MemoryPersistence.sortByKey] at ih ⊢
    simp [List.foldr_cons, length_insertSorted, ih]

/-- After `create` the Working Set is the old one plus one freshly allocated
record (its address is at or above the old allocation watermark). -/
theorem create_items_shape (gen : Nat → String) (saver : Option Saver) (s : Pers) (item : Rec) :
    ∃ a, s.nextAddr ≤ a ∧ ∃ o : Obj,
      (IdentifiableMemoryPersistence.create gen saver s item).state.items = s.items ++ [⟨a, o⟩] := by
  by_cases hn : isNullish (idOf item) = true
  · exact ⟨s.nextAddr + 1, by omega, setProp item.obj "id" (JsVal.str (gen s.genCtr)),
      by simp [IdentifiableMemoryPersistence.create, MemoryPersistence.create, hn]⟩
  · exact ⟨s.nextAddr, Nat.le_refl _, item.obj,
      by simp [IdentifiableMemoryPersistence.create, MemoryPersistence.create, hn]⟩

/-- After `set` the Working Set is the old one with a freshly allocated clone
either appended or replacing one slot. -/
theorem set_items_shape (gen : Nat → String) (saver : Option Saver) (s : Pers) (item : Rec) :
    ∃ a, s.nextAddr ≤ a ∧ ∃ o : Obj,
      ((IdentifiableMemoryPersistence.set gen saver s item).state.items = s.items ++ [⟨a, o⟩] ∨
        ∃ j, (IdentifiableMemoryPersistence.set gen saver s item).state.items
          = s.items.set j ⟨a, o⟩) := by
  refine ⟨s.nextAddr, Nat.le_refl _, ?_⟩
  by_cases hn : isNullish (idOf ⟨s.nextAddr, item.obj⟩) = true
  · cases hidx : IdentifiableMemoryPersistence.findIndexById s.items
      (idOf ⟨s.nextAddr, setProp item.obj "id" (.str (gen s.genCtr))⟩) with
    | none =>
      exact ⟨setProp item.obj "id" (.str (gen s.genCtr)),
        Or.inl (by simp [IdentifiableMemoryPersistence.set, hn, hidx])⟩
    | some j =>
      exact ⟨setProp item.obj "id" (.str (gen s.genCtr)),
        Or.inr ⟨j, by simp [IdentifiableMemoryPersistence.set, hn, hidx]⟩⟩
  · cases hidx : IdentifiableMemoryPersistence.findIndexById s.items
      (idOf ⟨s.nextAddr, item.obj⟩) with
    | none =>
      exact ⟨item.obj, Or.inl (by simp [IdentifiableMemoryPersistence.set, hn, hidx])⟩
    | some j =>
      exact ⟨item.obj, Or.inr ⟨j, by simp [IdentifiableMemoryPersistence.set, hn, hidx]⟩⟩

/-- After `update` the Working Set is unchanged (not found) or has one slot
replaced by a freshly allocated clone of the submitted record. -/
theorem update_items_shape (saver : Option Saver) (s : Pers) (item : Rec) :
    (IdentifiableMemoryPersistence.update saver s item).state.items = s.items ∨
      ∃ j, (IdentifiableMemoryPersistence.update saver s item).state.items
        = s.items.set j ⟨s.nextAddr, item.obj⟩ := by
  cases hidx : IdentifiableMemoryPersistence.findIndexById s.items (idOf item) with
  | none => exact Or.inl (by simp [IdentifiableMemoryPersistence.update, hidx])
  | some j => exact Or.inr ⟨j, by simp [IdentifiableMemoryPersistence.update, hidx]⟩

/-- The record `create` hands back is a member of the new Working Set (it is
the stored object itself). -/
theorem create_ret_mem (gen : Nat → String) (saver : Option Saver) (s : Pers) (item : Rec) :
    ∃ c, (IdentifiableMemoryPersistence.create gen saver s item).ret = some c ∧
      c ∈ (IdentifiableMemoryPersistence.create gen saver s item).state.items := by
  by_cases hn : isNullish (idOf item) = true
  · refine ⟨⟨s.nextAddr + 1, setProp item.obj "id" (JsVal.str (gen s.genCtr))⟩, ?_, ?_⟩ <;>
      simp [IdentifiableMemoryPersistence.create, MemoryPersistence.create, hn]
  · refine ⟨⟨s.nextAddr, item.obj⟩, ?_, ?_⟩ <;>
      simp [IdentifiableMemoryPersistence.create, MemoryPersistence.create, hn]

/-- The record `set` hands back is a member of the new Working Set (it is
the stored object itself, whether appended or replacing a slot). -/
theorem set_ret_alias (gen : Nat → String) (saver : Option Saver) (s : Pers) (item : Rec) :
    ∀ c, (IdentifiableMemoryPersistence.set gen saver s item).ret = some c →
      c ∈ (IdentifiableMemoryPersistence.set gen saver s item).state.items := by
  intro c hc
  by_cases hn : isNullish (idOf ⟨s.nextAddr, item.obj⟩) = true
  · cases hidx : IdentifiableMemoryPersistence.findIndexById s.items
      (idOf ⟨s.nextAddr, setProp item.obj "id" (.str (gen s.genCtr))⟩) with
    | none =>
      simp [IdentifiableMemoryPersistence.set, hn, hidx] at hc ⊢
      simp [hc]
    | some j =>
      have hidx' : List.findIdx?
          (fun r => decide (idOf r =
            idOf (⟨s.nextAddr, setProp item.obj "id" (JsVal.str (gen s.genCtr))⟩ : Rec)))
          s.items = some j := hidx
      have hj : j < s.items.length := (List.findIdx?_eq_some_iff_findIdx_eq.mp hidx').1
      simp [IdentifiableMemoryPersistence.set, hn, hidx] at hc ⊢
      subst hc
      exact List.mem_set s.items j hj _
  · cases hidx : IdentifiableMemoryPersistence.findIndexById s.items
      (idOf ⟨s.nextAddr, item.obj⟩) with
    | none =>
      simp [IdentifiableMemoryPersistence.set, hn, hidx] at hc ⊢
      simp [hc]
    | some j =>
      have hidx' : List.findIdx?
          (fun r => decide (idOf r = idOf (⟨s.nextAddr, item.obj⟩ : Rec)))
          s.items = some j := hidx
      have hj : j < s.items.length := (List.findIdx?_eq_some_iff_findIdx_eq.mp hidx').1
      simp [IdentifiableMemoryPersistence.set, hn, hidx] at hc ⊢
      subst hc
      exact List.mem_set s.items j hj _

/-- The record `update` hands back (when it finds the id) is a member of the
new Working Set: the stored slot holds the very clone passed to the
callback. -/
theorem update_ret_alias (saver : Option Saver) (s : Pers) (item : Rec) :
    ∀ c, (IdentifiableMemoryPersistence.update saver s item).ret = some c →
      c ∈ (IdentifiableMemoryPersistence.update saver s item).state.items := by
  intro c hc
  cases hidx : IdentifiableMemoryPersistence.findIndexById s.items (idOf item) with
  | none => simp [IdentifiableMemoryPersistence.update, hidx] at hc
  | some i =>
    have hidx' : List.findIdx? (fun r => decide (idOf r = idOf item)) s.items = some i := hidx
    have hi : i < s.items.length := (List.findIdx?_eq_some_iff_findIdx_eq.mp hidx').1
    simp [IdentifiableMemoryPersistence.update, hidx] at hc ⊢
    subst hc
    exact List.mem_set s.items i hi _

/-- The record `updatePartially` hands back (when it finds the id) is a
member of the new Working Set: `_.extend` mutates and returns the stored
object itself. -/
theorem updatePartially_ret_alias (saver : Option Saver) (s : Pers) (id : JsVal) (data : Obj) :
    ∀ c, (IdentifiableMemoryPersistence.updatePartially saver s id data).ret = some c →
      c ∈ (IdentifiableMemoryPersistence.updatePartially saver s id data).state.items := by
  intro c hc
  cases hidx : IdentifiableMemoryPersistence.findIndexById s.items id with
  | none => simp [IdentifiableMemoryPersistence.updatePartially, hidx] at hc
  | some i =>
    have hidx' : List.findIdx? (fun r => decide (idOf r = id)) s.items = some i := hidx
    have hi : i < s.items.length := (List.findIdx?_eq_some_iff_findIdx_eq.mp hidx').1
    cases hold : s.items[i]? with
    | none => simp [IdentifiableMemoryPersistence.updatePartially, hidx, hold] at hc
    | some old =>
      simp [IdentifiableMemoryPersistence.updatePartially, hidx, hold] at hc ⊢
      subst hc
      exact List.mem_set s.items i hi _

/-- C1 counterexample: after `create` on an empty store, the record handed
back to the caller is the very object stored in the Working Set (heap address
1), so a single caller-side mutation of the returned record changes the
Working Set — the returned record is not an independent copy. -/
theorem c1_counterexample :
    resC1.ret.map Rec.addr = some 1 ∧
    mutateProp resC1.state.items 1 "key" (JsVal.str "HACK") ≠ resC1.state.items :=
  ⟨by decide, by decide⟩

/-- C1 amended: the *submitted* record is copied before being stored by
`create`/`update`/`set`, so later caller mutation of the submitted record
leaves the Working Set unchanged; but the record *handed back* aliases the
store in every operation: `create`, `set`, `update`, and `updatePartially`
hand back the very object stored in the Working Set, and `getOneById`
returns a stored record without copying. -/
theorem c1_amended_input_copied_output_aliased :
    (∀ (gen : Nat → String) (saver : Option Saver) (s : Pers) (item : Rec) (k : String) (v : JsVal),
      item.addr ∉ s.items.map Rec.addr → item.addr < s.nextAddr →
      mutateProp (IdentifiableMemoryPersistence.create gen saver s item).state.items item.addr k v
        = (IdentifiableMemoryPersistence.create gen saver s item).state.items) ∧
    (∀ (gen : Nat → String) (saver : Option Saver) (s : Pers) (item : Rec) (k : String) (v : JsVal),
      item.addr ∉ s.items.map Rec.addr → item.addr < s.nextAddr →
      mutateProp (IdentifiableMemoryPersistence.set gen saver s item).state.items item.addr k v
        = (IdentifiableMemoryPersistence.set gen saver s item).state.items) ∧
    (∀ (saver : Option Saver) (s : Pers) (item : Rec) (k : String) (v : JsVal),
      item.addr ∉ s.items.map Rec.addr → item.addr < s.nextAddr →
      mutateProp (IdentifiableMemoryPersistence.update saver s item).state.items item.addr k v
        = (IdentifiableMemoryPersistence.update saver s item).state.items) ∧
    (∀ (gen : Nat → String) (saver : Option Saver) (s : Pers) (item : Rec) (c : Rec),
      (IdentifiableMemoryPersistence.create gen saver s item).ret = some c →
      c.addr ∈ (IdentifiableMemoryPersistence.create gen saver s item).state.items.map Rec.addr) ∧
    (∀ (gen : Nat → String) (saver : Option Saver) (s : Pers) (item : Rec) (c : Rec),
      (IdentifiableMemoryPersistence.set gen saver s item).ret = some c →
      c ∈ (IdentifiableMemoryPersistence.set gen saver s item).state.items) ∧
    (∀ (saver : Option Saver) (s : Pers) (item : Rec) (c : Rec),
      (IdentifiableMemoryPersistence.update saver s item).ret = some c →
      c ∈ (IdentifiableMemoryPersistence.update saver s item).state.items) ∧
    (∀ (saver : Option Saver) (s : Pers) (id : JsVal) (data : Obj) (c : Rec),
      (IdentifiableMemoryPersistence.updatePartially saver s id data).ret = some c →
      c ∈ (IdentifiableMemoryPersistence.updatePartially saver s id data).state.items) ∧
    (∀ (s : Pers) (id : JsVal) (c : Rec),
      IdentifiableMemoryPersistence.getOneById s id = some c → c ∈ s.items) := by
  refine ⟨?_, ?_, ?_, ?_, ?_, ?_, ?_, ?_⟩
  · intro gen saver s item k v h1 h2
    obtain ⟨a, ha, o, heq⟩ := create_items_shape gen saver s item
    rw [heq]
    apply mutateProp_eq_self
    intro r hr
    rcases List.mem_append.mp hr with h | h
    · exact fun hc => h1 (hc ▸ List.mem_map_of_mem Rec.addr h)
    · simp only [List.mem_singleton] at h
      subst h
      simp only []
      omega
  · intro gen saver s item k v h1 h2
    obtain ⟨a, ha, o, heq⟩ := set_items_shape gen saver s item
    rcases heq with heq | ⟨j, heq⟩
    · rw [heq]
      apply mutateProp_eq_self
      intro r hr
      rcases List.mem_append.mp hr with h | h
      · exact fun hc => h1 (hc ▸ List.mem_map_of_mem Rec.addr h)
      · simp only [List.mem_singleton] at h
        subst h
        simp only []
        omega
    · rw [heq]
      apply mutateProp_eq_self
      intro r hr
      rcases List.mem_or_eq_of_mem_set hr with h | h
      · exact fun hc => h1 (hc ▸ List.mem_map_of_mem Rec.addr h)
      · subst h
        simp only []
        omega
  · intro saver s item k v h1 h2
    rcases update_items_shape saver s item with heq | ⟨j, heq⟩
    · rw [heq]
      apply mutateProp_eq_self
      intro r hr
      exact fun hc => h1 (hc ▸ List.mem_map_of_mem Rec.addr hr)
    · rw [heq]
      apply mutateProp_eq_self
      intro r hr
      rcases List.mem_or_eq_of_mem_set hr with h | h
      · exact fun hc => h1 (hc ▸ List.mem_map_of_mem Rec.addr h)
      · subst h
        simp only []
        omega
  · intro gen saver s item c hc
    obtain ⟨c', h1, h2⟩ := create_ret_mem gen saver s item
    rw [h1] at hc
    injection hc with hc
    subst hc
    exact List.mem_map_of_mem Rec.addr h2
  · exact fun gen saver s item => set_ret_alias gen saver s item
  · exact fun saver s item => update_ret_alias saver s item
  · exact fun saver s id data => updatePartially_ret_alias saver s id data
  · intro s id c hc
    unfold IdentifiableMemoryPersistence.getOneById at hc
    cases hfil : s.items.filter (fun x => looseEq (idOf x) id) with
    | nil => rw [hfil] at hc; simp at hc
    | cons a t =>
      rw [hfil] at hc
      simp only [List.head?_cons, Option.some.injEq] at hc
      subst hc
      exact List.mem_of_mem_filter (hfil ▸ List.mem_cons_self a t)

/-- Witness for the amended C1 at concrete inputs: mutating the submitted
record after `create` does not change the Working Set, and the record
`update` hands back is itself stored in the Working Set. -/
theorem c1_amended_witness :
    mutateProp (IdentifiableMemoryPersistence.create genRep none
        ⟨[⟨0, [("id", JsVal.str "z")]⟩], 3, 0, 100⟩ ⟨2, [("id", JsVal.null)]⟩).state.items
        2 "key" (JsVal.str "HACK")
      = (IdentifiableMemoryPersistence.create genRep none
        ⟨[⟨0, [("id", JsVal.str "z")]⟩], 3, 0, 100⟩ ⟨2, [("id", JsVal.null)]⟩).state.items ∧
    (⟨persA.nextAddr, itemA.obj⟩ : Rec) ∈
      (IdentifiableMemoryPersistence.update (some savFail) persA itemA).state.items :=
  ⟨c1_amended_input_copied_output_aliased.1 genRep none
    ⟨[⟨0, [("id", JsVal.str "z")]⟩], 3, 0, 100⟩ ⟨2, [("id", JsVal.null)]⟩ "key"
    (JsVal.str "HACK") (by decide) (by decide),
  c1_amended_input_copied_output_aliased.2.2.2.2.2.1 (some savFail) persA itemA
    ⟨persA.nextAddr, itemA.obj⟩ (by decide)⟩

/-- C4: `update` on a record whose id strictly matches no stored record
completes with a null item and no error, leaves the Working Set exactly as it
was, and never reaches the save call, so the saver is not invoked. -/
theorem c4_update_not_found_noop (saver : Option Saver) (s : Pers) (item : Rec)
    (h : ∀ r ∈ s.items, idOf r ≠ idOf item) :
    IdentifiableMemoryPersistence.update saver s item = ⟨none, none, s, false⟩ := by
  have hidx : IdentifiableMemoryPersistence.findIndexById s.items (idOf item) = none := by
    rw [IdentifiableMemoryPersistence.findIndexById, List.findIdx?_eq_none_iff]
    intro r hr
    simpa using h r hr
  simp [IdentifiableMemoryPersistence.update, hidx]

/-- Witness for C4 at a concrete input: the saver fails on every call, yet
`update` for an absent id answers (null error, null item) with an untouched
state, showing the saver is never consulted. -/
theorem c4_witness :
    IdentifiableMemoryPersistence.update (some savFail) persA itemB =
      ⟨none, none, persA, false⟩ :=
  c4_update_not_found_noop (some savFail) persA itemB (by decide)

/-- C6: `deleteByFilter` leaves exactly the non-matching records in their
original relative order, reaches the save call iff at least one record was
removed, and on no match completes successfully with an untouched state and
no saver invocation. -/
theorem c6_deleteByFilter_spec (saver : Option Saver) (s : Pers) (pred : Rec → Bool) :
    (MemoryPersistence.deleteByFilter saver s pred).state.items
        = s.items.filter (fun x => !pred x) ∧
    ((MemoryPersistence.deleteByFilter saver s pred).saveAttempted = true ↔
        ∃ x ∈ s.items, pred x = true) ∧
    ((∀ x ∈ s.items, pred x = false) →
      MemoryPersistence.deleteByFilter saver s pred = ⟨none, none, s, false⟩) := by
  have hdel := delUpTo_length pred s.items
  refine ⟨?_, ?_, ?_⟩
  · unfold MemoryPersistence.deleteByFilter
    rw [hdel]
    by_cases hz : s.items.countP pred = 0 <;> simp [hz]
  · unfold MemoryPersistence.deleteByFilter
    rw [hdel]
    by_cases hz : s.items.countP pred = 0
    · simp only [hz, if_pos]
      simp only [List.countP_eq_zero] at hz
      simp
      intro x hx
      simpa using hz x hx
    · simp only [hz, if_neg, if_false]
      simp only [← ne_eq, Nat.ne_zero_iff_zero_lt, List.countP_pos_iff] at hz
      simpa using hz
  · intro hall
    have hz : s.items.countP pred = 0 :=
      List.countP_eq_zero.mpr (by intro a ha; simp [hall a ha])
    have hfil : s.items.filter (fun x => !pred x) = s.items :=
      List.filter_eq_self.mpr (by intro a ha; simp [hall a ha])
    unfold MemoryPersistence.deleteByFilter
    rw [hdel]
    simp [hz, hfil]

/-- Witness for C6 at a concrete input: a never-matching predicate leaves the
one-record Working Set untouched and does not consult the failing saver. -/
theorem c6_witness :
    MemoryPersistence.deleteByFilter (some savFail) persA (fun _ => false) =
      ⟨none, none, persA, false⟩ :=
  (c6_deleteByFilter_spec (some savFail) persA (fun _ => false)).2.2 (fun _ _ => rfl)

/-- C10: with a stored record whose id is the number 1, `getOneById` queried
with the string "1" finds the record through loose equality `==`, while
`deleteById`, `update`, and `updatePartially` locate records through
strict-equality `indexOf`, answer "not found", and leave the Working Set
unchanged. -/
theorem c10_loose_read_strict_write :
    IdentifiableMemoryPersistence.getOneById persC10 (JsVal.str "1") = some rec10 ∧
    IdentifiableMemoryPersistence.deleteById (some savFail) persC10 (JsVal.str "1") =
      ⟨none, none, persC10, false⟩ ∧
    IdentifiableMemoryPersistence.update (some savFail) persC10 itemC10 =
      ⟨none, none, persC10, false⟩ ∧
    IdentifiableMemoryPersistence.updatePartially (some savFail) persC10 (JsVal.str "1")
      [("key", JsVal.str "C")] = ⟨none, none, persC10, false⟩ :=
  ⟨by decide, by decide, by decide, by decide⟩

/-- C3 counterexample: with the default `max_page_size` of 100, a Working Set
of 101 records, an always-true filter, skip 0, and take 101, `getPageByFilter`
returns 100 records — not `min(take, max(0, N - skip)) = 101` — because the
requested take is clamped at `_maxPageSize`; the total is still the filtered
size 101. -/
theorem c3_counterexample :
    pageC3.1.length = 100 ∧ pageC3.2 = some 101 ∧
      (100 : Nat) ≠ min 101 (max 0 (101 - 0)) :=
  ⟨by decide, by decide, by decide⟩

/-- Arithmetic core of the page extraction: slicing a list by a non-negative
skip and a take clamped at a non-negative cap yields
`min (min take cap) (length - skip)` elements. -/
theorem page_slice_length (l : List Rec) (sk tk mps : Int) (tot : Bool)
    (hsk : 0 ≤ sk) (htk : 0 ≤ tk) (hmps : 0 ≤ mps) :
    ((if MemoryPersistence.getSkip ⟨some sk, some tk, tot⟩ (-1) > 0 then
        l.drop (MemoryPersistence.getSkip ⟨some sk, some tk, tot⟩ (-1)).toNat
      else l).take
        (MemoryPersistence.getTake ⟨some sk, some tk, tot⟩ mps).toNat).length
      = min (min tk mps).toNat (l.length - sk.toNat) := by
  have hskip : MemoryPersistence.getSkip ⟨some sk, some tk, tot⟩ (-1) = sk := by
    simp only [MemoryPersistence.getSkip]
    rw [if_neg (by omega)]
  have htake : MemoryPersistence.getTake ⟨some sk, some tk, tot⟩ mps = min tk mps := by
    simp only [MemoryPersistence.getTake]
    rw [if_neg (by omega)]
    by_cases h : tk > mps
    · rw [if_pos h]; omega
    · rw [if_neg h]; omega
  rw [hskip, htake]
  by_cases hs0 : sk > 0
  · rw [if_pos hs0, List.length_take, List.length_drop]
  · rw [if_neg hs0, List.length_take]
    have : sk = 0 := by omega
    subst this
    simp

/-- C3 amended: for every Working Set, filter, optional sort key, and paging
request with skip `sk ≥ 0` and take `tk ≥ 0` (and a non-negative
`_maxPageSize`), the page holds exactly
`min (min tk maxPageSize) (max 0 (N - sk))` records where `N` is the filtered
pre-paging size — the requested take is clamped at `_maxPageSize` — and when a
total is requested it equals `N`, never the raw Working Set size. -/
theorem c3_amended_page_length_and_total (p : Pers) (f : Rec → Bool)
    (srt : Option (Rec → Int)) (sk tk : Int) (tot : Bool)
    (hsk : 0 ≤ sk) (htk : 0 ≤ tk) (hmps : 0 ≤ p.maxPageSize) :
    (MemoryPersistence.getPageByFilter p (some f) (some ⟨some sk, some tk, tot⟩) srt).1.length
      = min (min tk p.maxPageSize).toNat ((p.items.filter f).length - sk.toNat) ∧
    (MemoryPersistence.getPageByFilter p (some f) (some ⟨some sk, some tk, tot⟩) srt).2
      = if tot then some (p.items.filter f).length else none := by
  cases srt with
  | none =>
    constructor
    · simp only [MemoryPersistence.getPageByFilter]
      exact page_slice_length (p.items.filter f) sk tk p.maxPageSize tot hsk htk hmps
    · simp only [MemoryPersistence.getPageByFilter]
  | some key =>
    constructor
    · simp only [MemoryPersistence.getPageByFilter]
      rw [page_slice_length (MemoryPersistence.sortByKey key (p.items.filter f))
        sk tk p.maxPageSize tot hsk htk hmps, length_sortByKey]
    · simp only [MemoryPersistence.getPageByFilter, length_sortByKey]

/-- Witness for the amended C3 at a concrete input: 1 record skipped out of 1
filtered, take 2 capped by page size 100, so 0 records and total 1. -/
theorem c3_amended_witness :
    (MemoryPersistence.getPageByFilter persA (some (fun _ => true))
        (some ⟨some 1, some 2, true⟩) none).1.length
      = min (min 2 persA.maxPageSize).toNat ((persA.items.filter (fun _ => true)).length - 1) ∧
    (MemoryPersistence.getPageByFilter persA (some (fun _ => true))
        (some ⟨some 1, some 2, true⟩) none).2
      = if true then some (persA.items.filter (fun _ => true)).length else none :=
  c3_amended_page_length_and_total persA (fun _ => true) none 1 2 true
    (by decide) (by decide) (by decide)

/-- C7: when a record with the given id is stored at index `i`,
`updatePartially` stores, at the same index and address, the old record
extended with the data map: every field named in the map carries the map's
value, every other field keeps its stored value, all other slots are
untouched, the merged record is handed back, and the save call is reached. -/
theorem c7_updatePartially_merges (saver : Option Saver) (s : Pers) (id : JsVal) (data : Obj)
    (i : Nat) (old : Rec)
    (hidx : IdentifiableMemoryPersistence.findIndexById s.items id = some i)
    (hold : s.items[i]? = some old)
    (hnodup : (data.map Prod.fst).Nodup) :
    (IdentifiableMemoryPersistence.updatePartially saver s id data).state.items
        = s.items.set i ⟨old.addr, extendObj old.obj data⟩ ∧
    (IdentifiableMemoryPersistence.updatePartially saver s id data).ret
        = some ⟨old.addr, extendObj old.obj data⟩ ∧
    (IdentifiableMemoryPersistence.updatePartially saver s id data).state.items.length
        = s.items.length ∧
    (IdentifiableMemoryPersistence.updatePartially saver s id data).state.items[i]?
        = some ⟨old.addr, extendObj old.obj data⟩ ∧
    (∀ j, j ≠ i →
      (IdentifiableMemoryPersistence.updatePartially saver s id data).state.items[j]?
        = s.items[j]?) ∧
    (∀ k v, (k, v) ∈ data → getProp (extendObj old.obj data) k = v) ∧
    (∀ k, k ∉ data.map Prod.fst → getProp (extendObj old.obj data) k = getProp old.obj k) ∧
    (IdentifiableMemoryPersistence.updatePartially saver s id data).saveAttempted = true := by
  have hup : IdentifiableMemoryPersistence.updatePartially saver s id data =
      ⟨save saver (s.items.set i ⟨old.addr, extendObj old.obj data⟩),
        some ⟨old.addr, extendObj old.obj data⟩,
        { s with items := s.items.set i ⟨old.addr, extendObj old.obj data⟩ }, true⟩ := by
    simp [IdentifiableMemoryPersistence.updatePartially, hidx, hold]
  have hi : i < s.items.length := by
    by_contra hcon
    rw [List.getElem?_eq_none (by omega)] at hold
    exact Option.noConfusion hold
  refine ⟨by rw [hup], by rw [hup], ?_, ?_, ?_, ?_, ?_, by rw [hup]⟩
  · rw [hup]
    exact List.length_set s.items i _
  · rw [hup]
    simp [List.getElem?_set, hi]
  · intro j hj
    rw [hup]
    exact List.getElem?_set_ne (Ne.symm hj)
  · intro k v hkv
    exact getProp_extendObj_mem old.obj data hnodup hkv
  · intro k hk
    exact getProp_extendObj_not_mem old.obj data hk

/-- Witness for C7 at a concrete input: updating only `content` rewrites the
stored record in place, and the merged record keeps `key` while taking the
new `content`. -/
theorem c7_witness :
    (IdentifiableMemoryPersistence.updatePartially (some savFail) persC7 (JsVal.str "1")
        [("content", JsVal.str "X")]).state.items
      = persC7.items.set 0 ⟨recC7.addr, extendObj recC7.obj [("content", JsVal.str "X")]⟩ ∧
    getProp (extendObj recC7.obj [("content", JsVal.str "X")]) "content" = JsVal.str "X" ∧
    getProp (extendObj recC7.obj [("content", JsVal.str "X")]) "key" = JsVal.str "K" := by
  have h := c7_updatePartially_merges (some savFail) persC7 (JsVal.str "1")
    [("content", JsVal.str "X")] 0 recC7 (by decide) (by decide) (by decide)
  exact ⟨h.1, h.2.2.2.2.2.1 "content" (JsVal.str "X") (by decide), by decide⟩

/-- C8: `create` on a record with a null/absent id, when the freshly generated
id does not loosely occur among the stored ids, hands back a record that
`getOneById` (queried with the returned record's id) finds again, whose id is
the generated one and whose every other field equals the submitted record's
field. -/
theorem c8_create_then_getOneById (gen : Nat → String) (saver : Option Saver)
    (s : Pers) (item : Rec)
    (hnull : isNullish (idOf item) = true)
    (hfresh : ∀ r ∈ s.items, looseEq (idOf r) (JsVal.str (gen s.genCtr)) = false) :
    ∃ c, (IdentifiableMemoryPersistence.create gen saver s item).ret = some c ∧
      IdentifiableMemoryPersistence.getOneById
        (IdentifiableMemoryPersistence.create gen saver s item).state (idOf c) = some c ∧
      idOf c = JsVal.str (gen s.genCtr) ∧
      ∀ k, k ≠ "id" → getProp c.obj k = getProp item.obj k := by
  refine ⟨⟨s.nextAddr + 1, setProp item.obj "id" (JsVal.str (gen s.genCtr))⟩, ?_, ?_, ?_, ?_⟩
  · simp [IdentifiableMemoryPersistence.create, MemoryPersistence.create, hnull]
  · have hid : idOf (⟨s.nextAddr + 1, setProp item.obj "id" (JsVal.str (gen s.genCtr))⟩ : Rec)
        = JsVal.str (gen s.genCtr) := by
      simp [idOf, getProp_setProp_self]
    have hitems : (IdentifiableMemoryPersistence.create gen saver s item).state.items
        = s.items ++ [⟨s.nextAddr + 1, setProp item.obj "id" (JsVal.str (gen s.genCtr))⟩] := by
      simp [IdentifiableMemoryPersistence.create, MemoryPersistence.create, hnull]
    rw [IdentifiableMemoryPersistence.getOneById, hitems, hid, List.filter_append]
    have h1 : s.items.filter (fun x => looseEq (idOf x) (JsVal.str (gen s.genCtr))) = [] :=
      List.filter_eq_nil_iff.mpr (by intro a ha; simp [hfresh a ha])
    rw [h1]
    simp [hid, looseEq]
  · simp [idOf, getProp_setProp_self]
  · intro k hk
    exact getProp_setProp_ne item.obj _ hk

/-- Witness for C8 at a concrete input: creating a null-id record in a store
whose only id is "a" (the generated id "" is fresh) and reading it back. -/
theorem c8_witness :
    ∃ c, (IdentifiableMemoryPersistence.create genRep none persA itemNullId).ret = some c ∧
      IdentifiableMemoryPersistence.getOneById
        (IdentifiableMemoryPersistence.create genRep none persA itemNullId).state (idOf c)
          = some c ∧
      idOf c = JsVal.str (genRep persA.genCtr) ∧
      ∀ k, k ≠ "id" → getProp c.obj k = getProp itemNullId.obj k :=
  c8_create_then_getOneById genRep none persA itemNullId (by decide) (by decide)

/-- When no stored id strictly equals `id`, the `indexOf` scan reports -1. -/
theorem findIndexById_eq_none (items : List Rec) (id : JsVal)
    (h : ∀ r ∈ items, idOf r ≠ id) :
    IdentifiableMemoryPersistence.findIndexById items id = none := by
  rw [IdentifiableMemoryPersistence.findIndexById, List.findIdx?_eq_none_iff]
  intro r hr
  simpa using h r hr

/-- When some stored id strictly equals `id`, the `indexOf` scan finds an
index. -/
theorem findIndexById_exists (items : List Rec) (id : JsVal)
    (h : ∃ r ∈ items, idOf r = id) :
    ∃ i, IdentifiableMemoryPersistence.findIndexById items id = some i := by
  cases hf : IdentifiableMemoryPersistence.findIndexById items id with
  | some i => exact ⟨i, rfl⟩
  | none =>
    rw [IdentifiableMemoryPersistence.findIndexById, List.findIdx?_eq_none_iff] at hf
    obtain ⟨r, hr, hid⟩ := h
    have := hf r hr
    simp [hid] at this

/-- C9: with the completion callback omitted, `update`, `updatePartially` and
`deleteById` complete normally when a record with the given id exists, but
throw a runtime error when none does: the not-found branch invokes the
callback unconditionally, while every other completion path guards the
invocation with an `if (callback)` check. -/
theorem c9_omitted_callback_throws_on_not_found :
    (∀ (saver : Option Saver) (s : Pers) (item : Rec),
      (∃ r ∈ s.items, idOf r = idOf item) →
      ∃ o, IdentifiableMemoryPersistence.updateRun saver false s item = .ok o) ∧
    (∀ (saver : Option Saver) (s : Pers) (item : Rec),
      (∀ r ∈ s.items, idOf r ≠ idOf item) →
      IdentifiableMemoryPersistence.updateRun saver false s item = .error ()) ∧
    (∀ (saver : Option Saver) (s : Pers) (id : JsVal) (data : Obj),
      (∃ r ∈ s.items, idOf r = id) →
      ∃ o, IdentifiableMemoryPersistence.updatePartiallyRun saver false s id data = .ok o) ∧
    (∀ (saver : Option Saver) (s : Pers) (id : JsVal) (data : Obj),
      (∀ r ∈ s.items, idOf r ≠ id) →
      IdentifiableMemoryPersistence.updatePartiallyRun saver false s id data = .error ()) ∧
    (∀ (saver : Option Saver) (s : Pers) (id : JsVal),
      (∃ r ∈ s.items, idOf r = id) →
      ∃ o, IdentifiableMemoryPersistence.deleteByIdRun saver false s id = .ok o) ∧
    (∀ (saver : Option Saver) (s : Pers) (id : JsVal),
      (∀ r ∈ s.items, idOf r ≠ id) →
      IdentifiableMemoryPersistence.deleteByIdRun saver false s id = .error ()) := by
  refine ⟨?_, ?_, ?_, ?_, ?_, ?_⟩
  · intro saver s item h
    obtain ⟨i, hi⟩ := findIndexById_exists s.items (idOf item) h
    refine ⟨IdentifiableMemoryPersistence.update saver s item, ?_⟩
    simp [IdentifiableMemoryPersistence.updateRun, hi]
  · intro saver s item h
    simp [IdentifiableMemoryPersistence.updateRun, findIndexById_eq_none s.items (idOf item) h]
  · intro saver s id data h
    obtain ⟨i, hi⟩ := findIndexById_exists s.items id h
    refine ⟨IdentifiableMemoryPersistence.updatePartially saver s id data, ?_⟩
    simp [IdentifiableMemoryPersistence.updatePartiallyRun, hi]
  · intro saver s id data h
    simp [IdentifiableMemoryPersistence.updatePartiallyRun, findIndexById_eq_none s.items id h]
  · intro saver s id h
    obtain ⟨i, hi⟩ := findIndexById_exists s.items id h
    refine ⟨IdentifiableMemoryPersistence.deleteById saver s id, ?_⟩
    simp [IdentifiableMemoryPersistence.deleteByIdRun, hi]
  · intro saver s id h
    simp [IdentifiableMemoryPersistence.deleteByIdRun, findIndexById_eq_none s.items id h]

/-- Witness for C9 at concrete inputs: id "a" is stored, id "b" is not. -/
theorem c9_witness :
    (∃ o, IdentifiableMemoryPersistence.updateRun (some savFail) false persA itemA = .ok o) ∧
    IdentifiableMemoryPersistence.updateRun (some savFail) false persA itemB = .error () ∧
    (∃ o, IdentifiableMemoryPersistence.updatePartiallyRun (some savFail) false persA
      (JsVal.str "a") [("key", JsVal.str "Z")] = .ok o) ∧
    IdentifiableMemoryPersistence.updatePartiallyRun (some savFail) false persA
      (JsVal.str "b") [("key", JsVal.str "Z")] = .error () ∧
    (∃ o, IdentifiableMemoryPersistence.deleteByIdRun (some savFail) false persA
      (JsVal.str "a") = .ok o) ∧
    IdentifiableMemoryPersistence.deleteByIdRun (some savFail) false persA
      (JsVal.str "b") = .error () := by
  have h := c9_omitted_callback_throws_on_not_found
  exact ⟨h.1 (some savFail) persA itemA (by decide),
    h.2.1 (some savFail) persA itemB (by decide),
    h.2.2.1 (some savFail) persA (JsVal.str "a") [("key", JsVal.str "Z")] (by decide),
    h.2.2.2.1 (some savFail) persA (JsVal.str "b") [("key", JsVal.str "Z")] (by decide),
    h.2.2.2.2.1 (some savFail) persA (JsVal.str "a") (by decide),
    h.2.2.2.2.2 (some savFail) persA (JsVal.str "b") (by decide)⟩

/-- `create` pushes the stored clone at the end and its error is exactly the
save outcome on the new Working Set. -/
theorem create_push (gen : Nat → String) (saver : Option Saver) (s : Pers) (item : Rec) :
    ∃ c, (IdentifiableMemoryPersistence.create gen saver s item).ret = some c ∧
      (IdentifiableMemoryPersistence.create gen saver s item).state.items = s.items ++ [c] ∧
      (IdentifiableMemoryPersistence.create gen saver s item).err
        = save saver (s.items ++ [c]) := by
  by_cases hn : isNullish (idOf item) = true
  · exact ⟨⟨s.nextAddr + 1, setProp item.obj "id" (JsVal.str (gen s.genCtr))⟩,
      by simp [IdentifiableMemoryPersistence.create, MemoryPersistence.create, hn],
      by simp [IdentifiableMemoryPersistence.create, MemoryPersistence.create, hn],
      by simp [IdentifiableMemoryPersistence.create, MemoryPersistence.create, hn]⟩
  · exact ⟨⟨s.nextAddr, item.obj⟩,
      by simp [IdentifiableMemoryPersistence.create, MemoryPersistence.create, hn],
      by simp [IdentifiableMemoryPersistence.create, MemoryPersistence.create, hn],
      by simp [IdentifiableMemoryPersistence.create, MemoryPersistence.create, hn]⟩

/-- `set` stores its clone by replacement or push, hands the clone back, and
its error is exactly the save outcome on the new Working Set. -/
theorem set_shape (gen : Nat → String) (saver : Option Saver) (s : Pers) (item : Rec) :
    ∃ c, (IdentifiableMemoryPersistence.set gen saver s item).ret = some c ∧
      ((∃ j, (IdentifiableMemoryPersistence.set gen saver s item).state.items
          = s.items.set j c) ∨
        (IdentifiableMemoryPersistence.set gen saver s item).state.items = s.items ++ [c]) ∧
      (IdentifiableMemoryPersistence.set gen saver s item).err
        = save saver (IdentifiableMemoryPersistence.set gen saver s item).state.items := by
  by_cases hn : isNullish (idOf ⟨s.nextAddr, item.obj⟩) = true
  · cases hidx : IdentifiableMemoryPersistence.findIndexById s.items
      (idOf ⟨s.nextAddr, setProp item.obj "id" (.str (gen s.genCtr))⟩) with
    | none =>
      exact ⟨⟨s.nextAddr, setProp item.obj "id" (.str (gen s.genCtr))⟩,
        by simp [IdentifiableMemoryPersistence.set, hn, hidx],
        Or.inr (by simp [IdentifiableMemoryPersistence.set, hn, hidx]),
        by simp [IdentifiableMemoryPersistence.set, hn, hidx]⟩
    | some j =>
      exact ⟨⟨s.nextAddr, setProp item.obj "id" (.str (gen s.genCtr))⟩,
        by simp [IdentifiableMemoryPersistence.set, hn, hidx],
        Or.inl ⟨j, by simp [IdentifiableMemoryPersistence.set, hn, hidx]⟩,
        by simp [IdentifiableMemoryPersistence.set, hn, hidx]⟩
  · cases hidx : IdentifiableMemoryPersistence.findIndexById s.items
      (idOf ⟨s.nextAddr, item.obj⟩) with
    | none =>
      exact ⟨⟨s.nextAddr, item.obj⟩,
        by simp [IdentifiableMemoryPersistence.set, hn, hidx],
        Or.inr (by simp [IdentifiableMemoryPersistence.set, hn, hidx]),
        by simp [IdentifiableMemoryPersistence.set, hn, hidx]⟩
    | some j =>
      exact ⟨⟨s.nextAddr, item.obj⟩,
        by simp [IdentifiableMemoryPersistence.set, hn, hidx],
        Or.inl ⟨j, by simp [IdentifiableMemoryPersistence.set, hn, hidx]⟩,
        by simp [IdentifiableMemoryPersistence.set, hn, hidx]⟩

/-- C5: when the attached saver always fails with `e`, every mutating
operation (`create`, `set`, `update`, `updatePartially`, `deleteById`,
`clear`) completes with exactly that error while its in-memory change —
insertion, replacement, merge, or removal — is already applied and not rolled
back, leaving a fully usable state. -/
theorem c5_save_failure_applied_not_rolled_back
    (sv : Saver) (e : String) (gen : Nat → String) (s : Pers) (item : Rec)
    (data : Obj) (i : Nat) (old : Rec)
    (hfail : ∀ l, sv l = some e)
    (hidx : IdentifiableMemoryPersistence.findIndexById s.items (idOf item) = some i)
    (hold : s.items[i]? = some old) :
    ((IdentifiableMemoryPersistence.create gen (some sv) s item).err = some e ∧
      ∃ c, (IdentifiableMemoryPersistence.create gen (some sv) s item).ret = some c ∧
        (IdentifiableMemoryPersistence.create gen (some sv) s item).state.items
          = s.items ++ [c]) ∧
    ((IdentifiableMemoryPersistence.set gen (some sv) s item).err = some e ∧
      ∃ c, (IdentifiableMemoryPersistence.set gen (some sv) s item).ret = some c ∧
        ((∃ j, (IdentifiableMemoryPersistence.set gen (some sv) s item).state.items
            = s.items.set j c) ∨
          (IdentifiableMemoryPersistence.set gen (some sv) s item).state.items
            = s.items ++ [c])) ∧
    ((IdentifiableMemoryPersistence.update (some sv) s item).err = some e ∧
      (IdentifiableMemoryPersistence.update (some sv) s item).state.items
        = s.items.set i ⟨s.nextAddr, item.obj⟩) ∧
    ((IdentifiableMemoryPersistence.updatePartially (some sv) s (idOf item) data).err
        = some e ∧
      (IdentifiableMemoryPersistence.updatePartially (some sv) s (idOf item) data).state.items
        = s.items.set i ⟨old.addr, extendObj old.obj data⟩) ∧
    ((IdentifiableMemoryPersistence.deleteById (some sv) s (idOf item)).err = some e ∧
      (IdentifiableMemoryPersistence.deleteById (some sv) s (idOf item)).state.items
        = s.items.eraseIdx i ∧
      (IdentifiableMemoryPersistence.deleteById (some sv) s (idOf item)).ret
        = s.items[i]?) ∧
    ((MemoryPersistence.clear (some sv) s).err = some e ∧
      (MemoryPersistence.clear (some sv) s).state.items = []) := by
  refine ⟨?_, ?_, ?_, ?_, ?_, ?_⟩
  · obtain ⟨c, hret, hitems, herr⟩ := create_push gen (some sv) s item
    exact ⟨by rw [herr]; simp [save, hfail], c, hret, hitems⟩
  · obtain ⟨c, hret, hitems, herr⟩ := set_shape gen (some sv) s item
    exact ⟨by rw [herr]; simp [save, hfail], c, hret, hitems⟩
  · constructor <;> simp [IdentifiableMemoryPersistence.update, hidx, save, hfail]
  · constructor <;>
      simp [IdentifiableMemoryPersistence.updatePartially, hidx, hold, save, hfail]
  · refine ⟨?_, ?_, ?_⟩ <;>
      simp [IdentifiableMemoryPersistence.deleteById, hidx, save, hfail]
  · constructor <;> simp [MemoryPersistence.clear, save, hfail]

/-- Witness for C5 at a concrete input: the always-failing saver surfaces
"boom" while `update` has already replaced the record and `clear` has already
emptied the Working Set. -/
theorem c5_witness :
    (IdentifiableMemoryPersistence.update (some savFail) persA itemA).err = some "boom" ∧
    (IdentifiableMemoryPersistence.update (some savFail) persA itemA).state.items
      = persA.items.set 0 ⟨persA.nextAddr, itemA.obj⟩ ∧
    (MemoryPersistence.clear (some savFail) persA).err = some "boom" ∧
    (MemoryPersistence.clear (some savFail) persA).state.items = [] := by
  have h := c5_save_failure_applied_not_rolled_back savFail "boom" genRep persA itemA
    [("content", JsVal.str "X")] 0 ⟨0, [("id", JsVal.str "a"), ("key", JsVal.str "K")]⟩
    (fun _ => rfl) (by decide) (by decide)
  exact ⟨h.2.2.1.1, h.2.2.1.2, h.2.2.2.2.2.1, h.2.2.2.2.2.2⟩

/-- A `create` call with a null-id record and an injective generator
preserves the id-uniqueness invariant. -/
theorem create_preserves_IdsSpec (gen : Nat → String) (saver : Option Saver)
    (s : Pers) (item : Rec)
    (hinj : ∀ m n, gen m = gen n → m = n)
    (hnull : isNullish (idOf item) = true)
    (h : IdsSpec gen s) :
    IdsSpec gen (IdentifiableMemoryPersistence.create gen saver s item).state := by
  have hid : idOf (⟨s.nextAddr + 1, setProp item.obj "id" (JsVal.str (gen s.genCtr))⟩ : Rec)
      = JsVal.str (gen s.genCtr) := by
    simp [idOf, getProp_setProp_self]
  have hitems : (IdentifiableMemoryPersistence.create gen saver s item).state.items
      = s.items ++ [⟨s.nextAddr + 1, setProp item.obj "id" (JsVal.str (gen s.genCtr))⟩] := by
    simp [IdentifiableMemoryPersistence.create, MemoryPersistence.create, hnull]
  have hctr : (IdentifiableMemoryPersistence.create gen saver s item).state.genCtr
      = s.genCtr + 1 := by
    simp [IdentifiableMemoryPersistence.create, MemoryPersistence.create, hnull]
  constructor
  · rw [hitems, List.map_append, List.pairwise_append]
    refine ⟨h.1, by simp, ?_⟩
    intro a ha b hb
    simp only [List.map_cons, List.map_nil, List.mem_singleton, hid] at hb
    obtain ⟨k, hk, hak⟩ := h.2 a ha
    subst hb
    subst hak
    intro heq
    have := hinj k s.genCtr (by injection heq)
    omega
  · rw [hitems, hctr, List.map_append]
    intro v hv
    rcases List.mem_append.mp hv with hv | hv
    · obtain ⟨k, hk, hvk⟩ := h.2 v hv
      exact ⟨k, by omega, hvk⟩
    · simp only [List.map_cons, List.map_nil, List.mem_singleton, hid] at hv
      exact ⟨s.genCtr, by omega, hv⟩

/-- A `set` call with a null-id record and an injective generator preserves
the id-uniqueness invariant (the freshly generated id never strictly matches
a stored one, so `set` appends). -/
theorem set_preserves_IdsSpec (gen : Nat → String) (saver : Option Saver)
    (s : Pers) (item : Rec)
    (hinj : ∀ m n, gen m = gen n → m = n)
    (hnull : isNullish (idOf item) = true)
    (h : IdsSpec gen s) :
    IdsSpec gen (IdentifiableMemoryPersistence.set gen saver s item).state := by
  have hnull' : isNullish (idOf (⟨s.nextAddr, item.obj⟩ : Rec)) = true := hnull
  have hid : idOf (⟨s.nextAddr, setProp item.obj "id" (JsVal.str (gen s.genCtr))⟩ : Rec)
      = JsVal.str (gen s.genCtr) := by
    simp [idOf, getProp_setProp_self]
  have hnone : IdentifiableMemoryPersistence.findIndexById s.items
      (idOf (⟨s.nextAddr, setProp item.obj "id" (JsVal.str (gen s.genCtr))⟩ : Rec)) = none := by
    rw [hid]
    apply findIndexById_eq_none
    intro r hr
    obtain ⟨k, hk, hrk⟩ := h.2 (idOf r) (List.mem_map_of_mem idOf hr)
    rw [hrk]
    intro heq
    have := hinj k s.genCtr (by injection heq)
    omega
  have hitems : (IdentifiableMemoryPersistence.set gen saver s item).state.items
      = s.items ++ [⟨s.nextAddr, setProp item.obj "id" (JsVal.str (gen s.genCtr))⟩] := by
    simp [IdentifiableMemoryPersistence.set, hnull', hnone]
  have hctr : (IdentifiableMemoryPersistence.set gen saver s item).state.genCtr
      = s.genCtr + 1 := by
    simp [IdentifiableMemoryPersistence.set, hnull', hnone]
  constructor
  · rw [hitems, List.map_append, List.pairwise_append]
    refine ⟨h.1, by simp, ?_⟩
    intro a ha b hb
    simp only [List.map_cons, List.map_nil, List.mem_singleton, hid] at hb
    obtain ⟨k, hk, hak⟩ := h.2 a ha
    subst hb
    subst hak
    intro heq
    have := hinj k s.genCtr (by injection heq)
    omega
  · rw [hitems, hctr, List.map_append]
    intro v hv
    rcases List.mem_append.mp hv with hv | hv
    · obtain ⟨k, hk, hvk⟩ := h.2 v hv
      exact ⟨k, by omega, hvk⟩
    · simp only [List.map_cons, List.map_nil, List.mem_singleton, hid] at hv
      exact ⟨s.genCtr, by omega, hv⟩

/-- Running a whole null-id `create`/`set` workload preserves the invariant. -/
theorem runOps_preserves_IdsSpec (gen : Nat → String) (saver : Option Saver)
    (ops : List WOp)
    (hinj : ∀ m n, gen m = gen n → m = n) :
    ∀ s : Pers, IdsSpec gen s → (∀ op ∈ ops, isNullish (idOf op.item) = true) →
      IdsSpec gen (runOps gen saver s ops) := by
  induction ops with
  | nil =>
    intro s h _
    simpa [runOps] using h
  | cons op rest ih =>
    intro s h hall
    have hop := hall op (List.mem_cons_self op rest)
    have hrest : ∀ o ∈ rest, isNullish (idOf o.item) = true :=
      fun o ho => hall o (List.mem_cons_of_mem _ ho)
    cases op with
    | wCreate it =>
      simp only [runOps]
      exact ih _ (create_preserves_IdsSpec gen saver s it hinj (by simpa [WOp.item] using hop) h)
        hrest
    | wSet it =>
      simp only [runOps]
      exact ih _ (set_preserves_IdsSpec gen saver s it hinj (by simpa [WOp.item] using hop) h)
        hrest

/-- C2: starting from the empty Working Set, for every finite sequence of
`create`/`set` calls that always submit null/absent ids (so the engine
generates every id), and any id generator that never repeats, the resulting
Working Set has pairwise distinct identifiers. -/
theorem c2_generated_ids_unique (gen : Nat → String) (saver : Option Saver)
    (ops : List WOp)
    (hinj : ∀ m n, gen m = gen n → m = n)
    (hnull : ∀ op ∈ ops, isNullish (idOf op.item) = true) :
    ((runOps gen saver emptyPers ops).items.map idOf).Pairwise (· ≠ ·) := by
  have h0 : IdsSpec gen emptyPers := ⟨by simp [emptyPers], by simp [emptyPers]⟩
  exact (runOps_preserves_IdsSpec gen saver ops hinj emptyPers h0 hnull).1

/-- Witness for C2 at a concrete input: a `create` followed by a `set`, both
with null/absent ids, under the injective generator `genRep`. -/
theorem c2_witness :
    ((runOps genRep none emptyPers opsC2).items.map idOf).Pairwise (· ≠ ·) := by
  have hinj : ∀ m n, genRep m = genRep n → m = n := by
    intro m n hmn
    have h2 : List.replicate m 'a' = List.replicate n 'a' := congrArg String.data hmn
    have h3 := congrArg List.length h2
    simpa using h3
  exact c2_generated_ids_unique genRep none opsC2 hinj (by decide)
